import Mathlib

/-!
Verification of the multilingual resume assistant's core pipeline:
shallow Lean embeddings of the translation service, resume parser,
semantic matching service and the job-description text builder, with
theorems settling the specified behavioural properties.

External ML capabilities (the statistical language detector, the
MarianMT translation models, the spaCy NER model, the sentence
embedder) are passed in as function parameters, mirroring the spec's
treatment of them as opaque capability providers.  Machine floats in
the source are modelled as rationals.
-/

/-- Python `str.lower()` (ASCII case folding, which covers every string
the embedded code compares). -/
def pyLower (s : String) : String := ⟨s.data.map Char.toLower⟩

/-- Does `hay` start with `needle` (over character lists)? -/
def listStarts : List Char → List Char → Bool
  | [], _ => true
  | _ :: _, [] => false
  | a :: as, b :: bs => a == b && listStarts as bs

/-- Does `needle` occur as a contiguous run inside `hay`? -/
def listInfix : List Char → List Char → Bool
  | needle, [] => needle.isEmpty
  | needle, b :: bs => listStarts needle (b :: bs) || listInfix needle bs

/-- Python substring test `needle in hay`. -/
def strContains (hay needle : String) : Bool :=
  listInfix needle.data hay.data

/-- Does string `s` start with `p`? -/
def strStarts (s p : String) : Bool :=
  listStarts p.data s.data

/-- Python whitespace characters recognised by `str.strip()` / `str.split()`. -/
def pyIsSpace (c : Char) : Bool :=
  c == ' ' || c == '\t' || c == '\n' || c == '\r' || c == '\x0b' || c == '\x0c'

/-- Python `str.strip()`: remove leading and trailing whitespace. -/
def pyStrip (s : String) : String :=
  ⟨((s.data.dropWhile pyIsSpace).reverse.dropWhile pyIsSpace).reverse⟩

/-- Python truthiness of an optional string field: present and non-empty. -/
def optStrPresent : Option String → Bool
  | some s => s ≠ ""
  | none => false

/-- Python truthiness of an optional list field: present and non-empty. -/
def optListPresent : Option (List String) → Bool
  | some l => l ≠ []
  | none => false

/-- A job description JSON record as consumed by
`Scripts/semantic_matching.build_job_description_text`: each key may be
absent (`none`) or present. -/
structure JobData where
  title : Option String
  description : Option String
  requirements : Option (List String)
  skills : Option (List String)

/-- `Scripts/semantic_matching.build_job_description_text`: concatenates the
non-empty sections Title, Description, Requirements (each requirement
prefixed by `"- "`), Skills (comma-joined), separated by blank lines, and
strips the result. -/
def build_job_description_text (data : JobData) : String :=
  let titlePart : List String :=
    match data.title with
    | some t => if t ≠ "" then ["Job Title: " ++ t] else []
    | none => []
  let descPart : List String :=
    match data.description with
    | some d => if d ≠ "" then ["Description: " ++ d] else []
    | none => []
  let reqPart : List String :=
    match data.requirements with
    | some reqs =>
        if reqs ≠ [] then
          ["Requirements:\n" ++ String.intercalate "\n" (reqs.map (fun req => "- " ++ req))]
        else []
    | none => []
  let skillPart : List String :=
    match data.skills with
    | some sk => if sk ≠ [] then ["Skills: " ++ String.intercalate ", " sk] else []
    | none => []
  pyStrip (String.intercalate "\n\n" (titlePart ++ descPart ++ reqPart ++ skillPart))

/-- C9: the canonical job-description text for
`{title: "Data Analyst", requirements: ["3 years SQL"], skills: ["SQL","Excel"]}`
starts with `"Job Title: Data Analyst"`, contains a `"Requirements:"` block whose
next line is `"- 3 years SQL"`, and contains the line `"Skills: SQL, Excel"`;
the full text is the blank-line separated concatenation of the non-empty
sections in the fixed order. -/
theorem build_job_description_text_concrete :
    build_job_description_text
        ⟨some "Data Analyst", none, some ["3 years SQL"], some ["SQL", "Excel"]⟩ =
      "Job Title: Data Analyst\n\nRequirements:\n- 3 years SQL\n\nSkills: SQL, Excel" ∧
    strStarts
      (build_job_description_text
        ⟨some "Data Analyst", none, some ["3 years SQL"], some ["SQL", "Excel"]⟩)
      "Job Title: Data Analyst" = true ∧
    strContains
      (build_job_description_text
        ⟨some "Data Analyst", none, some ["3 years SQL"], some ["SQL", "Excel"]⟩)
      "Requirements:\n- 3 years SQL" = true ∧
    strContains
      (build_job_description_text
        ⟨some "Data Analyst", none, some ["3 years SQL"], some ["SQL", "Excel"]⟩)
      "\nSkills: SQL, Excel" = true := by
  refine ⟨rfl, ?_, ?_, ?_⟩ <;> decide

/-- The exception kinds raised by the embedded services
(`src/core/exceptions.py` plus Python's built-in `ValueError`). -/
inductive PyError
  | valueError (msg : String)
  | languageDetectionError (msg : String)
  | modelLoadingError (msg : String)
  | resumeProcessingError (msg : String)
  | dataValidationError (msg : String)
deriving DecidableEq, Repr

/-- `config.processing.min_text_length` default (`src/core/config.py`). -/
def configMinTextLength : Nat := 50

/-- `config.processing.confidence_threshold` default (`src/core/config.py`). -/
def configConfidenceThreshold : ℚ := 7/10

/-- One vector-store record: id, document text and the `"type"` metadata
value (`none` when the caller attached no `type`, as in
`Scripts/vector_store.py`). -/
structure VSEntry where
  id : String
  document : String
  mtype : Option String
deriving DecidableEq, Repr

/-- Modelled from the spec: the ChromaDB collection (the `chromadb` library
is an external dependency, not part of this repository) keeps ids unique
and re-adding an id replaces the prior content, the upsert contract of
spec sections 3 and 4.5.  The collection is the list of its entries in
insertion order. -/
def chromaAdd (col : List VSEntry) (e : VSEntry) : List VSEntry :=
  if col.any (fun x => x.id = e.id) then
    col.map (fun x => if x.id = e.id then e else x)
  else
    col ++ [e]

/-- `collection.count()`: the number of stored entries. -/
def chromaCount (col : List VSEntry) : Nat := col.length

/-- The documents a query would return for a given id: the texts of the
entries stored under that id. -/
def docsForId (col : List VSEntry) (id : String) : List String :=
  (col.filter (fun e => e.id = id)).map (fun e => e.document)

/-- `SemanticMatchingService.add_resume_embedding`: validates the id and the
text (non-empty, stripped length at least `min_text_length`), then stores
the document under the id with `type = "resume"` metadata.  Validation
failures raise (`ValueError` / `DataValidationError`); the store operation
itself is the modelled ChromaDB add. -/
def add_resume_embedding (col : List VSEntry) (resume_id resume_text : String) :
    Except PyError (List VSEntry) :=
  if resume_id = "" then
    .error (.valueError "Resume ID must be a non-empty string")
  else if resume_text = "" then
    .error (.valueError "Resume text must be a non-empty string")
  else if (pyStrip resume_text).length < configMinTextLength then
    .error (.dataValidationError "Resume text too short")
  else
    .ok (chromaAdd col ⟨resume_id, resume_text, some "resume"⟩)

/-- `Scripts/vector_store.add_resume_to_store`: adds one document with the
caller's metadata (which carries no `"type"` key) and no validation. -/
def add_resume_to_store (col : List VSEntry) (resume_text resume_id : String) :
    List VSEntry :=
  chromaAdd col ⟨resume_id, resume_text, none⟩

/-- Insert one (entry, distance) pair into a list that is already ordered by
ascending distance, keeping earlier-inserted entries first among ties. -/
def insertByDist (p : VSEntry × ℚ) : List (VSEntry × ℚ) → List (VSEntry × ℚ)
  | [] => [p]
  | q :: rest => if p.2 < q.2 then p :: q :: rest else q :: insertByDist p rest

/-- Stable insertion sort by ascending distance. -/
def sortByDist : List (VSEntry × ℚ) → List (VSEntry × ℚ)
  | [] => []
  | p :: rest => insertByDist p (sortByDist rest)

/-- Modelled from the spec: `collection.query` of the external ChromaDB
library returns at most `n_results` documents ordered by ascending
embedding distance to the query text, optionally restricted to entries
whose `"type"` metadata equals the `where` filter (spec section 4.5).
The embedding model is abstracted into the distance oracle `dist`
(query text and document text to cosine distance). -/
def chromaQuery (dist : String → String → ℚ) (col : List VSEntry)
    (queryText : String) (nResults : Nat) (whereType : Option String) :
    List (VSEntry × ℚ) :=
  let filtered : List VSEntry :=
    match whereType with
    | some t => col.filter (fun e => e.mtype = some t)
    | none => col
  (sortByDist (filtered.map (fun e => (e, dist queryText e.document)))).take nResults

/-- Round-half-to-even to an integer, the rounding used by Python's built-in
`round`. -/
def roundHalfEven (x : ℚ) : ℤ :=
  if x - (Rat.floor x : ℚ) < 1/2 then Rat.floor x
  else if 1/2 < x - (Rat.floor x : ℚ) then Rat.floor x + 1
  else if Rat.floor x % 2 = 0 then Rat.floor x else Rat.floor x + 1

/-- Python `round(x, 4)`. -/
def pyRound4 (x : ℚ) : ℚ := (roundHalfEven (x * 10000) : ℚ) / 10000

/-- One element of the list returned by
`SemanticMatchingService.find_matching_resumes`. -/
structure MatchResult where
  resume_id : String
  similarity_score : ℚ
  metadata : Option String
  rank : Nat
deriving DecidableEq, Repr

/-- The result-assembly loop of `find_matching_resumes` (lines 234-250):
walk the query results with their enumeration index, convert each distance
to `similarity = 1 - distance`, keep a match when the unrounded similarity
reaches `min_score`, and record the similarity rounded to 4 decimals
together with the 1-based enumeration index as `rank`. -/
def matchesOf (min_score : ℚ) : Nat → List (VSEntry × ℚ) → List MatchResult
  | _, [] => []
  | i, (e, d) :: rest =>
    if min_score ≤ 1 - d then
      ⟨e.id, pyRound4 (1 - d), e.mtype, i + 1⟩ :: matchesOf min_score (i + 1) rest
    else
      matchesOf min_score (i + 1) rest

/-- `SemanticMatchingService.find_matching_resumes`: validates the query
text, queries the collection for `top_k` nearest resumes and assembles the
filtered, scored match list. -/
def find_matching_resumes (dist : String → String → ℚ) (col : List VSEntry)
    (job_description : String) (top_k : Nat) (min_score : ℚ) :
    Except PyError (List MatchResult) :=
  if job_description = "" then
    .error (.valueError "Job description must be a non-empty string")
  else
    .ok (matchesOf min_score 0 (chromaQuery dist col job_description top_k (some "resume")))

/-- The per-candidate `score` fields assembled by the
`/api/match-candidates` handler (`app.py` lines 704-728): the job text is
built, the collection queried for the 5 nearest documents (no `type`
filter), and each candidate's `score` is set to the raw distance
`results["distances"][0][i]`. -/
def match_candidates_scores (dist : String → String → ℚ) (col : List VSEntry)
    (job_data : JobData) : List ℚ :=
  (chromaQuery dist col (build_job_description_text job_data) 5 none).map
    (fun p => p.2)

theorem ratFloor_eq_floor (x : ℚ) : Rat.floor x = ⌊x⌋ :=
  (Rat.floor_def' x).trans Rat.floor_def.symm

theorem le_roundHalfEven (x : ℚ) : ⌊x⌋ ≤ roundHalfEven x := by
  unfold roundHalfEven
  simp only [ratFloor_eq_floor]
  split_ifs <;> omega

theorem roundHalfEven_le_floor_add_one (x : ℚ) : roundHalfEven x ≤ ⌊x⌋ + 1 := by
  unfold roundHalfEven
  simp only [ratFloor_eq_floor]
  split_ifs <;> omega

theorem roundHalfEven_mono {x y : ℚ} (h : x ≤ y) :
    roundHalfEven x ≤ roundHalfEven y := by
  rcases lt_or_eq_of_le (Int.floor_mono h) with hlt | heq
  · calc roundHalfEven x ≤ ⌊x⌋ + 1 := roundHalfEven_le_floor_add_one x
    _ ≤ ⌊y⌋ := by omega
    _ ≤ roundHalfEven y := le_roundHalfEven y
  · unfold roundHalfEven
    simp only [ratFloor_eq_floor]
    rw [← heq]
    have hxy : x - (⌊x⌋ : ℚ) ≤ y - (⌊x⌋ : ℚ) := by linarith
    split_ifs <;> first | omega | linarith

theorem roundHalfEven_intCast (n : ℤ) : roundHalfEven (n : ℚ) = n := by
  unfold roundHalfEven
  simp only [ratFloor_eq_floor, Int.floor_intCast]
  simp

theorem pyRound4_mono {x y : ℚ} (h : x ≤ y) : pyRound4 x ≤ pyRound4 y := by
  unfold pyRound4
  have h1 : x * 10000 ≤ y * 10000 := by nlinarith
  have h2 := roundHalfEven_mono h1
  have : (roundHalfEven (x * 10000) : ℚ) ≤ (roundHalfEven (y * 10000) : ℚ) := by
    exact_mod_cast h2
  linarith

theorem pyRound4_nonneg {x : ℚ} (h : 0 ≤ x) : 0 ≤ pyRound4 x := by
  have h0 : pyRound4 0 = 0 := by
    unfold pyRound4
    norm_num
    have := roundHalfEven_intCast 0
    norm_num at this
    simp [this]
  have := pyRound4_mono h
  rw [h0] at this
  exact this

theorem pyRound4_le_one {x : ℚ} (h : x ≤ 1) : pyRound4 x ≤ 1 := by
  have h1 : pyRound4 1 = 1 := by
    unfold pyRound4
    have : (1 : ℚ) * 10000 = ((10000 : ℤ) : ℚ) := by norm_num
    rw [this, roundHalfEven_intCast]
    norm_num
  have := pyRound4_mono h
  rw [h1] at this
  exact this

theorem filter_id_unique (t : String) (col : List VSEntry) :
    (col.map VSEntry.id).Nodup →
      ∀ x0 ∈ col, x0.id = t →
        col.filter (fun x => decide (x.id = t)) = [x0] := by
  induction col with
  | nil =>
    intro _ x0 hx0
    cases hx0
  | cons y ys ih =>
    intro hnd x0 hx0 hid
    rw [List.map_cons, List.nodup_cons] at hnd
    rcases List.mem_cons.mp hx0 with rfl | hmem
    · have hpy : decide (x0.id = t) = true := by simp [hid]
      have hnil : List.filter (fun x => decide (x.id = t)) ys = [] := by
        rw [List.filter_eq_nil_iff]
        intro a ha hpa
        have hat : a.id = t := of_decide_eq_true hpa
        exact hnd.1 (by rw [hid, ← hat]; exact List.mem_map_of_mem _ ha)
      simp [List.filter_cons, hpy, hnil]
    · have hpy : decide (y.id = t) = false := by
        rw [decide_eq_false_iff_not]
        intro hyt
        exact hnd.1 (by rw [hyt, ← hid]; exact List.mem_map_of_mem _ hmem)
      rw [List.filter_cons, hpy]
      exact ih hnd.2 x0 hmem hid

theorem chromaAdd_filter (col : List VSEntry) (e : VSEntry)
    (h : (col.map VSEntry.id).Nodup) :
    (chromaAdd col e).filter (fun x => decide (x.id = e.id)) = [e] := by
  unfold chromaAdd
  by_cases hany : col.any (fun x => decide (x.id = e.id)) = true
  · rw [if_pos hany, List.filter_map]
    obtain ⟨x0, hx0mem, hx0⟩ := List.any_eq_true.mp hany
    have hx0id : x0.id = e.id := of_decide_eq_true hx0
    have hpf : ((fun x => decide (x.id = e.id)) ∘
        fun x => if x.id = e.id then e else x) = fun x => decide (x.id = e.id) := by
      funext x
      by_cases hx : x.id = e.id <;> simp [hx]
    rw [hpf, filter_id_unique e.id col h x0 hx0mem hx0id]
    simp [hx0id]
  · rw [if_neg hany, List.filter_append]
    have h1 : col.filter (fun x => decide (x.id = e.id)) = [] := by
      rw [List.filter_eq_nil_iff]
      intro a ha hpa
      exact hany (List.any_eq_true.mpr ⟨a, ha, hpa⟩)
    rw [h1]
    simp

theorem chromaAdd_nodup (col : List VSEntry) (e : VSEntry)
    (h : (col.map VSEntry.id).Nodup) :
    ((chromaAdd col e).map VSEntry.id).Nodup := by
  unfold chromaAdd
  by_cases hany : col.any (fun x => decide (x.id = e.id)) = true
  · rw [if_pos hany, List.map_map]
    have hcomp : (VSEntry.id ∘ fun x => if x.id = e.id then e else x) = VSEntry.id := by
      funext x
      by_cases hx : x.id = e.id <;> simp [hx]
    rw [hcomp]
    exact h
  · rw [if_neg hany, List.map_append, List.nodup_append]
    refine ⟨h, List.nodup_singleton _, ?_⟩
    intro a ha hb
    rw [List.map_singleton, List.mem_singleton] at hb
    subst hb
    obtain ⟨x, hx, hxid⟩ := List.mem_map.mp ha
    exact hany (List.any_eq_true.mpr ⟨x, hx, by simp [hxid]⟩)

theorem chromaAdd_length_of_any (col : List VSEntry) (e : VSEntry)
    (hany : col.any (fun x => decide (x.id = e.id)) = true) :
    (chromaAdd col e).length = col.length := by
  unfold chromaAdd
  rw [if_pos hany, List.length_map]

theorem chromaAdd_any_self (col : List VSEntry) (e : VSEntry) :
    (chromaAdd col e).any (fun x => decide (x.id = e.id)) = true := by
  unfold chromaAdd
  by_cases hany : col.any (fun x => decide (x.id = e.id)) = true
  · rw [if_pos hany]
    obtain ⟨x0, hx0mem, hx0⟩ := List.any_eq_true.mp hany
    have hx0id : x0.id = e.id := of_decide_eq_true hx0
    exact List.any_eq_true.mpr
      ⟨e, List.mem_map.mpr ⟨x0, hx0mem, by simp [hx0id]⟩, by simp⟩
  · rw [if_neg hany]
    exact List.any_eq_true.mpr ⟨e, List.mem_append_right _ (List.mem_singleton.mpr rfl), by simp⟩

/-- C2: adding `(id, t1)` and then `(id, t2)` through
`add_resume_embedding` (both inputs passing validation, ids unique in the
store beforehand) leaves the store with `t2` as the only document for that
id: the second add does not increase `count()`, and a later query for the
id sees only the latest text.  The duplicate-id behaviour of the external
ChromaDB `collection.add` call is modelled from the spec's upsert
contract. -/
theorem add_resume_embedding_upsert (col : List VSEntry) (id t1 t2 : String)
    (hid : id ≠ "") (h1 : t1 ≠ "") (h2 : t2 ≠ "")
    (hl1 : configMinTextLength ≤ (pyStrip t1).length)
    (hl2 : configMinTextLength ≤ (pyStrip t2).length)
    (hnd : (col.map VSEntry.id).Nodup) :
    ∃ c1 c2, add_resume_embedding col id t1 = .ok c1 ∧
      add_resume_embedding c1 id t2 = .ok c2 ∧
      chromaCount c2 = chromaCount c1 ∧
      docsForId c2 id = [t2] := by
  refine ⟨chromaAdd col ⟨id, t1, some "resume"⟩,
      chromaAdd (chromaAdd col ⟨id, t1, some "resume"⟩) ⟨id, t2, some "resume"⟩,
      ?_, ?_, ?_, ?_⟩
  · unfold add_resume_embedding
    rw [if_neg hid, if_neg h1, if_neg (Nat.not_lt.mpr hl1)]
  · unfold add_resume_embedding
    rw [if_neg hid, if_neg h2, if_neg (Nat.not_lt.mpr hl2)]
  · exact chromaAdd_length_of_any _ _
      (chromaAdd_any_self col ⟨id, t1, some "resume"⟩)
  · show ((chromaAdd (chromaAdd col ⟨id, t1, some "resume"⟩)
        ⟨id, t2, some "resume"⟩).filter
          (fun x => decide (x.id = VSEntry.id ⟨id, t2, some "resume"⟩))).map
        VSEntry.document = [t2]
    rw [chromaAdd_filter _ _ (chromaAdd_nodup col _ hnd)]
    rfl

/-- Witness for C2 at a concrete store: the empty collection, id `"r1"`,
and two distinct 56-character resume texts. -/
theorem add_resume_embedding_upsert_witness :
    ∃ c1 c2,
      add_resume_embedding [] "r1"
          "Experienced software engineer skilled in Python and SQL." = .ok c1 ∧
      add_resume_embedding c1 "r1"
          "Data analyst experienced with Excel, Tableau and PowerBI" = .ok c2 ∧
      chromaCount c2 = chromaCount c1 ∧
      docsForId c2 "r1" = ["Data analyst experienced with Excel, Tableau and PowerBI"] :=
  add_resume_embedding_upsert [] "r1"
    "Experienced software engineer skilled in Python and SQL."
    "Data analyst experienced with Excel, Tableau and PowerBI"
    (by decide) (by decide) (by decide) (by decide) (by decide) (by decide)

theorem matchesOf_subset {ms1 ms2 : ℚ} (h : ms1 ≤ ms2) :
    ∀ (i : Nat) (l : List (VSEntry × ℚ)), ∀ m ∈ matchesOf ms2 i l, m ∈ matchesOf ms1 i l := by
  intro i l
  induction l generalizing i with
  | nil =>
    intro m hm
    simp [matchesOf] at hm
  | cons p rest ih =>
    intro m hm
    obtain ⟨e, d⟩ := p
    simp only [matchesOf] at hm ⊢
    by_cases h2 : ms2 ≤ 1 - d
    · rw [if_pos h2] at hm
      rw [if_pos (le_trans h h2)]
      rcases List.mem_cons.mp hm with rfl | hmem
      · exact List.mem_cons_self _ _
      · exact List.mem_cons_of_mem _ (ih (i + 1) m hmem)
    · rw [if_neg h2] at hm
      by_cases h1 : ms1 ≤ 1 - d
      · rw [if_pos h1]
        exact List.mem_cons_of_mem _ (ih (i + 1) m hm)
      · rw [if_neg h1]
        exact ih (i + 1) m hm

/-- C3: with the store, query text and `top_k` fixed, raising the
`min_score` threshold can only shrink the match set: every match returned
for the higher threshold is also returned for the lower one (with the same
id, score, metadata and rank). -/
theorem find_matching_resumes_threshold_subset
    (dist : String → String → ℚ) (col : List VSEntry) (jd : String)
    (top_k : Nat) (ms1 ms2 : ℚ) (m1 m2 : List MatchResult)
    (hms : ms1 < ms2)
    (hok1 : find_matching_resumes dist col jd top_k ms1 = .ok m1)
    (hok2 : find_matching_resumes dist col jd top_k ms2 = .ok m2) :
    ∀ m ∈ m2, m ∈ m1 := by
  unfold find_matching_resumes at hok1 hok2
  by_cases hjd : jd = ""
  · rw [if_pos hjd] at hok1
    cases hok1
  · rw [if_neg hjd] at hok1 hok2
    rw [Except.ok.injEq] at hok1 hok2
    subst hok1
    subst hok2
    exact matchesOf_subset (le_of_lt hms) 0 _

theorem pyRound4_one : pyRound4 1 = 1 := by
  unfold pyRound4
  have h : (1 : ℚ) * 10000 = ((10000 : ℤ) : ℚ) := by norm_num
  rw [h, roundHalfEven_intCast]
  norm_num

/-- Evaluation helper: `find_matching_resumes` over a single-entry resume
store with a constant distance oracle returns the single scored match. -/
theorem fmr_const_single (d ms : ℚ) (e : VSEntry) (he : e.mtype = some "resume")
    (jd : String) (hjd : jd ≠ "") (k : Nat) (hk : k ≠ 0) (hms : ms ≤ 1 - d) :
    find_matching_resumes (fun _ _ => d) [e] jd k ms =
      .ok [⟨e.id, pyRound4 (1 - d), e.mtype, 1⟩] := by
  obtain ⟨n, rfl⟩ : ∃ n, k = n + 1 := ⟨k - 1, by omega⟩
  unfold find_matching_resumes chromaQuery
  rw [if_neg hjd]
  simp only [List.filter, he, decide_eq_true_eq, List.map, sortByDist, insertByDist,
    List.take, matchesOf]
  rw [if_pos hms]
  simp [matchesOf]

/-- Witness for C3 at a concrete store: one stored resume at distance 0
from the query, thresholds 1/2 < 3/4; both calls return the same single
match and the subset inclusion holds. -/
theorem find_matching_resumes_threshold_subset_witness :
    (⟨"r1", 1, some "resume", 1⟩ : MatchResult) ∈
      ([⟨"r1", 1, some "resume", 1⟩] : List MatchResult) := by
  have hone : pyRound4 (1 - 0) = 1 := by
    rw [show (1 : ℚ) - 0 = 1 by norm_num, pyRound4_one]
  refine find_matching_resumes_threshold_subset (fun _ _ => 0)
    [⟨"r1", "python developer resume", some "resume"⟩] "python job" 5
    (1/2) (3/4) [⟨"r1", 1, some "resume", 1⟩] [⟨"r1", 1, some "resume", 1⟩]
    (by norm_num) ?_ ?_ ⟨"r1", 1, some "resume", 1⟩ ?_
  · rw [fmr_const_single 0 (1/2) _ rfl "python job" (by decide) 5 (by decide) (by norm_num),
      hone]
  · rw [fmr_const_single 0 (3/4) _ rfl "python job" (by decide) 5 (by decide) (by norm_num),
      hone]
  · exact List.mem_singleton.mpr rfl

theorem mem_insertByDist {x p : VSEntry × ℚ} {l : List (VSEntry × ℚ)} :
    x ∈ insertByDist p l ↔ x = p ∨ x ∈ l := by
  induction l with
  | nil => simp [insertByDist]
  | cons q rest ih =>
    simp only [insertByDist]
    split_ifs
    · simp [List.mem_cons]
    · rw [List.mem_cons, ih, List.mem_cons]
      tauto

theorem mem_sortByDist {x : VSEntry × ℚ} {l : List (VSEntry × ℚ)} :
    x ∈ sortByDist l ↔ x ∈ l := by
  induction l with
  | nil => simp [sortByDist]
  | cons p rest ih => simp [sortByDist, mem_insertByDist, ih]

theorem sorted_insertByDist (p : VSEntry × ℚ) (l : List (VSEntry × ℚ))
    (h : l.Pairwise (fun a b => a.2 ≤ b.2)) :
    (insertByDist p l).Pairwise (fun a b => a.2 ≤ b.2) := by
  induction l with
  | nil => simp [insertByDist]
  | cons q rest ih =>
    rw [List.pairwise_cons] at h
    simp only [insertByDist]
    split_ifs with hlt
    · rw [List.pairwise_cons]
      refine ⟨?_, List.pairwise_cons.mpr h⟩
      intro b hb
      rcases List.mem_cons.mp hb with rfl | hbm
      · exact le_of_lt hlt
      · exact le_trans (le_of_lt hlt) (h.1 b hbm)
    · rw [List.pairwise_cons]
      refine ⟨?_, ih h.2⟩
      intro b hb
      rcases mem_insertByDist.mp hb with rfl | hbm
      · exact le_of_not_lt hlt
      · exact h.1 b hbm

theorem sorted_sortByDist (l : List (VSEntry × ℚ)) :
    (sortByDist l).Pairwise (fun a b => a.2 ≤ b.2) := by
  induction l with
  | nil => simp [sortByDist]
  | cons p rest ih => exact sorted_insertByDist p _ ih

theorem chromaQuery_sorted (dist : String → String → ℚ) (col : List VSEntry)
    (q : String) (k : Nat) (w : Option String) :
    (chromaQuery dist col q k w).Pairwise (fun a b => a.2 ≤ b.2) := by
  unfold chromaQuery
  exact List.Pairwise.sublist (List.take_sublist _ _) (sorted_sortByDist _)

theorem mem_chromaQuery (dist : String → String → ℚ) (col : List VSEntry)
    (q : String) (k : Nat) (w : Option String) (p : VSEntry × ℚ)
    (hp : p ∈ chromaQuery dist col q k w) :
    ∃ e : VSEntry, p = (e, dist q e.document) := by
  unfold chromaQuery at hp
  have h1 := List.take_subset _ _ hp
  have h2 := mem_sortByDist.mp h1
  obtain ⟨e, _, rfl⟩ := List.mem_map.mp h2
  exact ⟨e, rfl⟩

theorem mem_matchesOf (ms : ℚ) :
    ∀ (i : Nat) (l : List (VSEntry × ℚ)), ∀ m ∈ matchesOf ms i l,
      ∃ p ∈ l, m.similarity_score = pyRound4 (1 - p.2) ∧ ms ≤ 1 - p.2 := by
  intro i l
  induction l generalizing i with
  | nil =>
    intro m hm
    simp [matchesOf] at hm
  | cons p rest ih =>
    intro m hm
    obtain ⟨e, d⟩ := p
    simp only [matchesOf] at hm
    by_cases h2 : ms ≤ 1 - d
    · rw [if_pos h2] at hm
      rcases List.mem_cons.mp hm with rfl | hmem
      · exact ⟨(e, d), List.mem_cons_self _ _, rfl, h2⟩
      · obtain ⟨q, hq, hprop⟩ := ih (i + 1) m hmem
        exact ⟨q, List.mem_cons_of_mem _ hq, hprop⟩
    · rw [if_neg h2] at hm
      obtain ⟨q, hq, hprop⟩ := ih (i + 1) m hm
      exact ⟨q, List.mem_cons_of_mem _ hq, hprop⟩

theorem matchesOf_pairwise (ms : ℚ) :
    ∀ (i : Nat) (l : List (VSEntry × ℚ)),
      l.Pairwise (fun a b => a.2 ≤ b.2) →
      (matchesOf ms i l).Pairwise
        (fun a b => b.similarity_score ≤ a.similarity_score) := by
  intro i l
  induction l generalizing i with
  | nil =>
    intro _
    simp [matchesOf]
  | cons p rest ih =>
    intro h
    obtain ⟨e, d⟩ := p
    rw [List.pairwise_cons] at h
    simp only [matchesOf]
    by_cases h2 : ms ≤ 1 - d
    · rw [if_pos h2, List.pairwise_cons]
      constructor
      · intro m hm
        obtain ⟨q, hq, hs, _⟩ := mem_matchesOf ms (i + 1) rest m hm
        rw [hs]
        exact pyRound4_mono (by have := h.1 q hq; linarith)
      · exact ih (i + 1) h.2
    · rw [if_neg h2]
      exact ih (i + 1) h.2

/-- C1 (amended): in `find_matching_resumes`, when the distance oracle is
nonnegative (cosine distance) and the caller's `min_score` threshold is
nonnegative, every returned match has `similarity_score = round(1 -
distance, 4)` inside `[0, 1]`, and the returned list is sorted
non-increasing by `similarity_score`.  (The `/api/match-candidates`
response's per-candidate `score` field does NOT satisfy this: it reports
the raw distance, see the counterexample theorem.) -/
theorem find_matching_resumes_scores_bounded_sorted
    (dist : String → String → ℚ) (col : List VSEntry) (jd : String)
    (top_k : Nat) (min_score : ℚ) (results : List MatchResult)
    (hdist : ∀ q t, 0 ≤ dist q t) (hms : 0 ≤ min_score)
    (hok : find_matching_resumes dist col jd top_k min_score = .ok results) :
    (∀ m ∈ results, 0 ≤ m.similarity_score ∧ m.similarity_score ≤ 1) ∧
      results.Pairwise (fun a b => b.similarity_score ≤ a.similarity_score) := by
  unfold find_matching_resumes at hok
  by_cases hjd : jd = ""
  · rw [if_pos hjd] at hok
    cases hok
  · rw [if_neg hjd, Except.ok.injEq] at hok
    subst hok
    constructor
    · intro m hm
      obtain ⟨p, hp, hs, hge⟩ := mem_matchesOf _ _ _ m hm
      obtain ⟨e, hpe⟩ := mem_chromaQuery dist col jd top_k (some "resume") p hp
      have h0 : 0 ≤ p.2 := by
        rw [hpe]
        exact hdist jd e.document
      rw [hs]
      exact ⟨pyRound4_nonneg (le_trans hms hge), pyRound4_le_one (by linarith)⟩
    · exact matchesOf_pairwise _ 0 _ (chromaQuery_sorted dist col jd top_k (some "resume"))

/-- Witness for the amended C1 at a concrete store: one resume entry at
distance 0 from the query text, threshold 1/2. -/
theorem find_matching_resumes_scores_bounded_sorted_witness :
    (∀ m ∈ ([⟨"r1", 1, some "resume", 1⟩] : List MatchResult),
        0 ≤ m.similarity_score ∧ m.similarity_score ≤ 1) ∧
      ([⟨"r1", 1, some "resume", 1⟩] : List MatchResult).Pairwise
        (fun a b => b.similarity_score ≤ a.similarity_score) := by
  refine find_matching_resumes_scores_bounded_sorted (fun _ _ => 0)
    [⟨"r1", "python developer resume", some "resume"⟩] "python job" 5 (1/2)
    [⟨"r1", 1, some "resume", 1⟩] (fun _ _ => le_refl 0) (by norm_num) ?_
  rw [fmr_const_single 0 (1/2) _ rfl "python job" (by decide) 5 (by decide) (by norm_num),
    show (1 : ℚ) - 0 = 1 by norm_num, pyRound4_one]

/-- C1 counterexample: on the `/api/match-candidates` path the per-candidate
`score` field is the raw ChromaDB distance, not `1 - distance`: with a
store whose single document sits at cosine distance 3/2 from the job text
(legal for cosine distance, which ranges over `[0, 2]`), the response
reports a score of 3/2, which lies outside `[0, 1]` and differs from
`1 - 3/2 = -1/2`. -/
theorem match_candidates_score_is_raw_distance :
    match_candidates_scores (fun _ _ => 3/2)
        [⟨"r1", "resume document text", none⟩]
        ⟨some "Data Analyst", none, none, none⟩ = [3/2] ∧
      ¬((3 : ℚ)/2 ≤ 1) ∧ (3 : ℚ)/2 ≠ 1 - 3/2 := by
  refine ⟨?_, by norm_num, by norm_num⟩
  unfold match_candidates_scores chromaQuery
  simp [sortByDist, insertByDist]

/-- Split a character stream into maximal whitespace-free runs, dropping
the whitespace (Python `str.split()` with no argument). -/
def splitWsAux : List Char → List Char → List (List Char)
  | [], acc => if acc.isEmpty then [] else [acc.reverse]
  | c :: cs, acc =>
    if pyIsSpace c then
      if acc.isEmpty then splitWsAux cs [] else acc.reverse :: splitWsAux cs []
    else
      splitWsAux cs (c :: acc)

/-- Python `text.split()`. -/
def pyWords (s : String) : List String :=
  (splitWsAux s.data []).map List.asString

/-- `" ".join(text.split())`: collapse whitespace runs to single spaces
(`TranslationService._preprocess_text_for_detection`, step 1). -/
def collapseWs (s : String) : String :=
  String.intercalate " " (pyWords s)

/-- Does a whitespace-free token match `\S+@\S+`, i.e. contain an `@` with
at least one character on each side?  The leftmost-greedy match of that
pattern covers the whole token. -/
def emailTokenLike (w : List Char) : Bool :=
  ((w.drop 1).dropLast).contains '@'

/-- `re.sub(r'\S+@\S+', '', cleaned)` applied to the already
whitespace-collapsed string: every space-separated token containing an
internal `@` is removed whole (the separating spaces remain). -/
def subEmails (s : String) : String :=
  String.intercalate " "
    (((s.data.splitOn ' ').map (fun w => if emailTokenLike w then [] else w)).map
      List.asString)

/-- The character class accepted inside a URL by the source's URL regex
`http[s]?://(?:[a-zA-Z]|[0-9]|[$-_@.&+]|[!*\\(\\),]|(?:%[0-9a-fA-F][0-9a-fA-F]))+`
(note `[$-_]` is the byte range 0x24-0x5F, which already contains `%`, so
the `%hh` alternative adds nothing). -/
def urlChar (c : Char) : Bool :=
  c.isAlpha || c.isDigit || (0x24 ≤ c.toNat && c.toNat ≤ 0x5F) ||
    c == '@' || c == '.' || c == '&' || c == '+' ||
    c == '!' || c == '*' || c == '\\' || c == '(' || c == ')' || c == ','

/-- Match `://` followed by one or more URL characters; returns the
remainder after the greedy match. -/
def urlAfterScheme (cs : List Char) : Option (List Char) :=
  match cs with
  | ':' :: '/' :: '/' :: rest =>
    if (rest.takeWhile urlChar).isEmpty then none
    else some (rest.drop (rest.takeWhile urlChar).length)
  | _ => none

/-- Match the URL pattern at the start of the stream (greedy optional `s`
with backtracking, as the regex engine does). -/
def urlMatchAt (cs : List Char) : Option (List Char) :=
  match cs with
  | 'h' :: 't' :: 't' :: 'p' :: rest =>
    match rest with
    | 's' :: rest2 =>
      match urlAfterScheme rest2 with
      | some r => some r
      | none => urlAfterScheme rest
    | _ => urlAfterScheme rest
  | _ => none

/-- Left-to-right non-overlapping removal of URL matches (`re.sub` of the
URL pattern); `fuel` bounds the scan and is instantiated with the input
length, which suffices since every step consumes at least one character. -/
def subUrlsAux : Nat → List Char → List Char
  | 0, cs => cs
  | _ + 1, [] => []
  | fuel + 1, c :: cs =>
    match urlMatchAt (c :: cs) with
    | some rest => subUrlsAux fuel rest
    | none => c :: subUrlsAux fuel cs

/-- `re.sub` of the URL pattern. -/
def subUrls (s : String) : String :=
  (subUrlsAux s.data.length s.data).asString

/-- Match `[\+]?[1-9][\d]{0,15}` at the start of the stream: an optional
plus, a nonzero digit, then greedily up to 15 further digits; returns the
remainder after the match. -/
def phoneMatchAt (cs : List Char) : Option (List Char) :=
  match cs with
  | '+' :: d :: rest =>
    if d.isDigit && d != '0' then
      some (rest.drop ((rest.takeWhile Char.isDigit).take 15).length)
    else none
  | d :: rest =>
    if d.isDigit && d != '0' then
      some (rest.drop ((rest.takeWhile Char.isDigit).take 15).length)
    else none
  | [] => none

/-- Left-to-right non-overlapping removal of phone-number-like digit runs
(`re.sub(r'[\+]?[1-9][\d]{0,15}', '', cleaned)`). -/
def subPhonesAux : Nat → List Char → List Char
  | 0, cs => cs
  | _ + 1, [] => []
  | fuel + 1, c :: cs =>
    match phoneMatchAt (c :: cs) with
    | some rest => subPhonesAux fuel rest
    | none => c :: subPhonesAux fuel cs

/-- `re.sub` of the phone pattern. -/
def subPhones (s : String) : String :=
  (subPhonesAux s.data.length s.data).asString

/-- `TranslationService._preprocess_text_for_detection`: collapse
whitespace, then strip email addresses, URLs and phone-number-like digit
runs, in that order. -/
def preprocess_text_for_detection (s : String) : String :=
  subPhones (subUrls (subEmails (collapseWs s)))

/-- The supported source languages of `TranslationService` (and the keys
of `LANG_TO_MODEL` in `Scripts/translate_resumes.py`). -/
def supported_languages : List String := ["fr", "es", "de"]

/-- `TranslationService.detect_language`: reject empty input
(`ValueError`), preprocess, reject a cleaned text whose stripped length is
below 10 (`LanguageDetectionError`), then run the statistical detector
(the external `langdetect.detect`, passed as the oracle `detector`); a
detector failure is re-raised as `LanguageDetectionError`. -/
def detect_language (detector : String → Except String String) (text : String) :
    Except PyError String :=
  if text = "" then
    .error (.valueError "Input text must be a non-empty string")
  else
    let cleaned := preprocess_text_for_detection text
    if (pyStrip cleaned).length < 10 then
      .error (.languageDetectionError "Text too short for reliable language detection")
    else
      match detector cleaned with
      | .ok lang => .ok lang
      | .error e => .error (.languageDetectionError ("Language detection failed: " ++ e))

/-- `Scripts/translate_resumes.detect_language`: run the detector on the
raw text and catch EVERY failure, returning the string `"unknown"` instead
of raising. -/
def scripts_detect_language (detector : String → Except String String)
    (text : String) : String :=
  match detector text with
  | .ok lang => lang
  | .error _ => "unknown"

/-- `TranslationService.translate_text`: validate the text, detect the
language when none is supplied, pass unsupported languages through
unchanged, and otherwise translate; the whole model-load / tokenize /
generate block is the oracle `translator`, and any failure of it degrades
to returning the original text. -/
def translate_text (detector : String → Except String String)
    (translator : String → String → Except String String)
    (text : String) (source_language : Option String) :
    Except PyError (String × String) :=
  if text = "" then
    .error (.valueError "Input text must be a non-empty string")
  else
    match (match source_language with
           | none => detect_language detector text
           | some l => Except.ok l) with
    | .error e => .error e
    | .ok lang =>
      if supported_languages.contains lang = false then
        .ok (text, lang)
      else
        match translator lang text with
        | .ok translated => .ok (translated, lang)
        | .error _ => .ok (text, lang)

/-- `Scripts/translate_resumes.translate_text`: translate through the
loaded model (oracle `loadTranslate`, covering `load_model_tokenizer` and
generation); on any failure return the original text. -/
def scripts_translate_text (loadTranslate : String → String → Except String String)
    (text lang_code : String) : String :=
  match loadTranslate lang_code text with
  | .ok t => t
  | .error _ => text

/-- `Scripts/translate_resumes.translate_single_resume`: detect the
language when not supplied, return the input unchanged when the language
has no local model, and otherwise translate (best effort). -/
def translate_single_resume (detector : String → Except String String)
    (loadTranslate : String → String → Except String String)
    (text : String) (lang_code : Option String) : String × String :=
  let lang :=
    match lang_code with
    | none => scripts_detect_language detector text
    | some l => l
  if supported_languages.contains lang = false then
    (text, lang)
  else
    (scripts_translate_text loadTranslate text lang, lang)

/-- `TranslationService.batch_translate`: empty input gives `[]`;
otherwise languages are detected up-front when not supplied (a detection
failure propagates), and each (text, language) pair is translated with a
per-item catch that falls back to the original pair. -/
def batch_translate (detector : String → Except String String)
    (translator : String → String → Except String String)
    (texts : List String) (source_languages : Option (List String)) :
    Except PyError (List (String × String)) :=
  if texts = [] then
    .ok []
  else
    match (match source_languages with
           | none => texts.mapM (fun t => detect_language detector t)
           | some ls => Except.ok ls) with
    | .error e => .error e
    | .ok langs =>
      .ok ((texts.zip langs).map (fun p =>
        match translate_text detector translator p.1 (some p.2) with
        | .ok r => r
        | .error _ => (p.1, p.2)))

/-- C4: for every non-empty text whose supplied — or, when not supplied,
detected — source language is outside the supported set
`{fr, es, de}`, both `TranslationService.translate_text` and the script's
`translate_single_resume` return the original text unchanged paired with
that language code, without raising. -/
theorem translate_unsupported_passthrough
    (detector : String → Except String String)
    (translator : String → String → Except String String)
    (loadTranslate : String → String → Except String String)
    (text : String) (src : Option String) (lang : String)
    (htext : text ≠ "")
    (hlang : supported_languages.contains lang = false)
    (hsrc : src = some lang ∨ (src = none ∧ detect_language detector text = Except.ok lang)) :
    translate_text detector translator text src = Except.ok (text, lang) ∧
      translate_single_resume detector loadTranslate text (some lang) = (text, lang) := by
  constructor
  · rcases hsrc with rfl | ⟨rfl, hdet⟩
    · have hstep : translate_text detector translator text (some lang) =
          (if supported_languages.contains lang = false then Except.ok (text, lang)
           else match translator lang text with
                | Except.ok t => Except.ok (t, lang)
                | Except.error _ => Except.ok (text, lang)) := by
        unfold translate_text
        rw [if_neg htext]
      rw [hstep, if_pos hlang]
    · have hstep : translate_text detector translator text none =
          (match detect_language detector text with
           | Except.error e => Except.error e
           | Except.ok l =>
             if supported_languages.contains l = false then Except.ok (text, l)
             else match translator l text with
                  | Except.ok t => Except.ok (t, l)
                  | Except.error _ => Except.ok (text, l)) := by
        unfold translate_text
        rw [if_neg htext]
      rw [hstep, hdet]
      show (if supported_languages.contains lang = false then Except.ok (text, lang)
        else match translator lang text with
             | Except.ok t => Except.ok (t, lang)
             | Except.error _ => Except.ok (text, lang)) = Except.ok (text, lang)
      rw [if_pos hlang]
  · show (if supported_languages.contains lang = false then (text, lang)
      else (scripts_translate_text loadTranslate text lang, lang)) = (text, lang)
    rw [if_pos hlang]

/-- Witness for C4: Italian input, language `"it"` supplied, which is not
in `{fr, es, de}`. -/
theorem translate_unsupported_passthrough_witness :
    translate_text (fun _ => Except.ok "it") (fun _ t => Except.ok t)
        "ciao a tutti" (some "it") = Except.ok ("ciao a tutti", "it") ∧
      translate_single_resume (fun _ => Except.ok "it") (fun _ t => Except.ok t)
        "ciao a tutti" (some "it") = ("ciao a tutti", "it") :=
  translate_unsupported_passthrough (fun _ => Except.ok "it") (fun _ t => Except.ok t)
    (fun _ t => Except.ok t) "ciao a tutti" (some "it") "it"
    (by decide) (by decide) (Or.inl rfl)

/-- C5: for every non-empty text with a supported source language, when the
translation step (model load, tokenization, generation — the `translator`
oracle) fails, `translate_text` catches the failure and returns the
original text paired with the source language as a successful result,
never propagating the error. -/
theorem translate_failure_degrades
    (detector : String → Except String String)
    (translator : String → String → Except String String)
    (text lang : String)
    (htext : text ≠ "")
    (hsup : supported_languages.contains lang = true)
    (hfail : ∃ e, translator lang text = Except.error e) :
    translate_text detector translator text (some lang) = Except.ok (text, lang) := by
  obtain ⟨e, he⟩ := hfail
  have hstep : translate_text detector translator text (some lang) =
      (if supported_languages.contains lang = false then Except.ok (text, lang)
       else match translator lang text with
            | Except.ok t => Except.ok (t, lang)
            | Except.error _ => Except.ok (text, lang)) := by
    unfold translate_text
    rw [if_neg htext]
  rw [hstep, if_neg (by rw [hsup]; exact fun h => absurd h (by simp)), he]

/-- Witness for C5: French text whose translation model fails to load. -/
theorem translate_failure_degrades_witness :
    translate_text (fun _ => Except.ok "fr")
        (fun _ _ => Except.error "Translation model not found")
        "bonjour tout le monde" (some "fr") =
      Except.ok ("bonjour tout le monde", "fr") :=
  translate_failure_degrades (fun _ => Except.ok "fr")
    (fun _ _ => Except.error "Translation model not found")
    "bonjour tout le monde" "fr" (by decide) (by decide)
    ⟨"Translation model not found", rfl⟩

/-- C7 (amended): `TranslationService.detect_language` does raise
`LanguageDetectionError` whenever the normalized text is shorter than 10
characters or the underlying statistical detector fails, never
substituting a default code; the script helper
`Scripts/translate_resumes.detect_language`, by contrast, swallows the
failure and returns the sentinel string `"unknown"` (see the
counterexample theorem). -/
theorem detect_language_failure_raises
    (detector : String → Except String String) (text : String)
    (htext : text ≠ "")
    (hfail : (pyStrip (preprocess_text_for_detection text)).length < 10 ∨
      ∃ e, detector (preprocess_text_for_detection text) = Except.error e) :
    ∃ msg, detect_language detector text =
      Except.error (PyError.languageDetectionError msg) := by
  unfold detect_language
  rw [if_neg htext]
  rcases hfail with hshort | ⟨e, he⟩
  · rw [if_pos hshort]
    exact ⟨_, rfl⟩
  · by_cases hs : (pyStrip (preprocess_text_for_detection text)).length < 10
    · rw [if_pos hs]
      exact ⟨_, rfl⟩
    · rw [if_neg hs, he]
      exact ⟨_, rfl⟩

/-- Witness for the amended C7: the two-character input `"ab"` survives
preprocessing with length 2 < 10, so the service raises. -/
theorem detect_language_failure_raises_witness :
    ∃ msg, detect_language (fun _ => Except.ok "en") "ab" =
      Except.error (PyError.languageDetectionError msg) :=
  detect_language_failure_raises (fun _ => Except.ok "en") "ab"
    (by decide) (Or.inl (by decide))

/-- C7 counterexample: on the script path, a detector failure does NOT
propagate as an error: `Scripts/translate_resumes.detect_language` catches
it and silently returns the sentinel code `"unknown"`. -/
theorem scripts_detect_language_defaults_to_unknown :
    scripts_detect_language (fun _ => Except.error "No features in text.") "ab" =
      "unknown" := rfl

/-- C10 (amended): when the parallel list of source-language codes is
supplied (same length as the texts), `batch_translate` returns a list of
exactly the same length whose i-th element is the outcome for the i-th
input — the translation result when `translate_text` succeeds, and the
original `(text, language)` pair when it raises — so one item's failure
never aborts the batch.  When the language list is omitted, languages are
detected up-front and a detection failure aborts the whole batch (see the
counterexample theorem). -/
theorem batch_translate_supplied_langs
    (detector : String → Except String String)
    (translator : String → String → Except String String)
    (texts langs : List String)
    (hlen : langs.length = texts.length) :
    ∃ res, batch_translate detector translator texts (some langs) = Except.ok res ∧
      res.length = texts.length ∧
      ∀ (i : Nat) (h1 : i < texts.length) (h2 : i < langs.length) (h3 : i < res.length),
        (∀ r, translate_text detector translator texts[i] (some langs[i]) = Except.ok r →
          res[i] = r) ∧
        (∀ e, translate_text detector translator texts[i] (some langs[i]) = Except.error e →
          res[i] = (texts[i], langs[i])) := by
  refine ⟨(texts.zip langs).map (fun p =>
      match translate_text detector translator p.1 (some p.2) with
      | Except.ok r => r
      | Except.error _ => (p.1, p.2)), ?_, ?_, ?_⟩
  · unfold batch_translate
    by_cases ht : texts = []
    · subst ht
      rw [if_pos rfl]
      simp
    · rw [if_neg ht]
  · rw [List.length_map, List.length_zip, hlen, Nat.min_self]
  · intro i h1 h2 h3
    constructor
    · intro r hr
      rw [List.getElem_map, List.getElem_zip]
      simp only [hr]
    · intro e he
      rw [List.getElem_map, List.getElem_zip]
      simp only [he]

/-- Witness for the amended C10: one French text whose translation fails;
the batch still returns a singleton list carrying the original pair. -/
theorem batch_translate_supplied_langs_witness :
    ∃ res, batch_translate (fun _ => Except.ok "fr")
        (fun _ _ => Except.error "boom") ["salut"] (some ["fr"]) = Except.ok res ∧
      res.length = 1 := by
  obtain ⟨res, hok, hlen, _⟩ := batch_translate_supplied_langs
    (fun _ => Except.ok "fr") (fun _ _ => Except.error "boom")
    ["salut"] ["fr"] (by decide)
  exact ⟨res, hok, hlen⟩

/-- C10 counterexample: with the language list omitted, `batch_translate`
first detects every language; the single text `"ab"` is too short for
detection, so the call raises `LanguageDetectionError` instead of
returning a one-element list. -/
theorem batch_translate_autodetect_aborts :
    batch_translate (fun _ => Except.ok "en") (fun _ t => Except.ok t)
        ["ab"] none =
      Except.error (PyError.languageDetectionError
        "Text too short for reliable language detection") := rfl

/-- The fixed skill keyword list of `ResumeParser._extract_skills`. -/
def skill_keywords : List String := [
  "python", "java", "javascript", "react", "angular", "vue", "node.js",
  "sql", "mongodb", "postgresql", "mysql", "aws", "azure", "docker",
  "kubernetes", "git", "agile", "scrum", "machine learning", "ai",
  "data analysis", "statistics", "excel", "powerbi", "tableau",
  "html", "css", "bootstrap", "jquery", "php", "c++", "c#", ".net",
  "spring", "django", "flask", "fastapi", "express", "graphql",
  "rest api", "microservices", "ci/cd", "jenkins", "github actions"]

/-- `ResumeParser._calculate_skill_confidence`: the fixed three-tier
heuristic — 0.9 when the (lowercased) document mentions a skills or
competencies marker anywhere, else 0.8 when it mentions experience or
work, else 0.6; 0.0 when the skill is absent. -/
def calculate_skill_confidence (text skill : String) : ℚ :=
  if strContains (pyLower text) (pyLower skill) then
    if strContains (pyLower text) "skills" || strContains (pyLower text) "competencies" then
      9/10
    else if strContains (pyLower text) "experience" || strContains (pyLower text) "work" then
      8/10
    else
      3/5
  else 0

/-- Regex word characters (`\w`): letters, digits and underscore. -/
def isWordChar (c : Char) : Bool := c.isAlpha || c.isDigit || c == '_'

/-- Is position `i` a word character (out of range counts as non-word)? -/
def isWordAt (cs : List Char) (i : Nat) : Bool := isWordChar (cs.getD i ' ')

/-- Regex word boundary `\b` between positions `i - 1` and `i`. -/
def wordBoundary (cs : List Char) (i : Nat) : Bool :=
  (if i = 0 then false else isWordAt cs (i - 1)) != isWordAt cs i

/-- Does the whole-word, case-insensitive pattern `\b{skill}\b` match the
text at position `i`? -/
def matchWordAt (text skill : String) (i : Nat) : Bool :=
  listStarts (pyLower skill).data ((pyLower text).data.drop i) &&
    wordBoundary text.data i && wordBoundary text.data (i + skill.data.length)

/-- `ResumeParser._extract_skill_context`: the text ±50 characters around
the first whole-word, case-insensitive occurrence of the skill, stripped;
empty when the word-bounded pattern does not match (as happens for
keywords ending in non-word characters such as `"c++"`). -/
def extract_skill_context (text skill : String) : String :=
  match (List.range (text.data.length + 1)).find? (matchWordAt text skill) with
  | some istart =>
    let iend := istart + skill.data.length
    let s := istart - 50
    let e := min text.data.length (iend + 50)
    pyStrip ((text.data.drop s).take (e - s)).asString
  | none => ""

/-- One extracted skill mention. -/
structure SkillMention where
  skill : String
  confidence : ℚ
  context : String
deriving DecidableEq, Repr

/-- Python `str.title()` for ASCII: a letter is uppercased when the
previous character is not a letter, lowercased otherwise. -/
def pyTitleAux : Bool → List Char → List Char
  | _, [] => []
  | prevAlpha, c :: cs =>
    (if c.isAlpha then (if prevAlpha then c.toLower else c.toUpper) else c) ::
      pyTitleAux c.isAlpha cs

/-- Python `str.title()`. -/
def pyTitle (s : String) : String := (pyTitleAux false s.data).asString

/-- Stable insertion of a mention into a confidence-descending list
(Python's stable `list.sort(key=confidence, reverse=True)` keeps the
earlier element first among ties). -/
def insertSkillDesc (m : SkillMention) : List SkillMention → List SkillMention
  | [] => [m]
  | x :: rest =>
    if x.confidence ≤ m.confidence then m :: x :: rest
    else x :: insertSkillDesc m rest

/-- Stable sort of skill mentions by descending confidence. -/
def sortSkillsDesc : List SkillMention → List SkillMention
  | [] => []
  | m :: rest => insertSkillDesc m (sortSkillsDesc rest)

/-- `ResumeParser._extract_skills`: every keyword contained in the
lowercased document becomes a mention with the three-tier confidence and
±50-character context, kept only when the confidence reaches the
threshold, then sorted by descending confidence. -/
def extract_skills (confidence_threshold : ℚ) (text : String) : List SkillMention :=
  sortSkillsDesc (skill_keywords.filterMap (fun skill =>
    if strContains (pyLower text) skill then
      if confidence_threshold ≤ calculate_skill_confidence text skill then
        some ⟨pyTitle skill, calculate_skill_confidence text skill,
          extract_skill_context text skill⟩
      else none
    else none))

theorem mem_insertSkillDesc {x m : SkillMention} {l : List SkillMention} :
    x ∈ insertSkillDesc m l ↔ x = m ∨ x ∈ l := by
  induction l with
  | nil => simp [insertSkillDesc]
  | cons q rest ih =>
    simp only [insertSkillDesc]
    split_ifs
    · simp [List.mem_cons]
    · rw [List.mem_cons, ih, List.mem_cons]
      tauto

theorem mem_sortSkillsDesc {x : SkillMention} {l : List SkillMention} :
    x ∈ sortSkillsDesc l ↔ x ∈ l := by
  induction l with
  | nil => simp [sortSkillsDesc]
  | cons m rest ih => simp [sortSkillsDesc, mem_insertSkillDesc, ih]

theorem sorted_insertSkillDesc (m : SkillMention) (l : List SkillMention)
    (h : l.Pairwise (fun a b => b.confidence ≤ a.confidence)) :
    (insertSkillDesc m l).Pairwise (fun a b => b.confidence ≤ a.confidence) := by
  induction l with
  | nil => simp [insertSkillDesc]
  | cons x rest ih =>
    rw [List.pairwise_cons] at h
    simp only [insertSkillDesc]
    split_ifs with hle
    · rw [List.pairwise_cons]
      refine ⟨?_, List.pairwise_cons.mpr h⟩
      intro b hb
      rcases List.mem_cons.mp hb with rfl | hbm
      · exact hle
      · exact le_trans (h.1 b hbm) hle
    · rw [List.pairwise_cons]
      refine ⟨?_, ih h.2⟩
      intro b hb
      rcases mem_insertSkillDesc.mp hb with rfl | hbm
      · exact le_of_lt (lt_of_not_le hle)
      · exact h.1 b hbm

theorem sorted_sortSkillsDesc (l : List SkillMention) :
    (sortSkillsDesc l).Pairwise (fun a b => b.confidence ≤ a.confidence) := by
  induction l with
  | nil => simp [sortSkillsDesc]
  | cons m rest ih => exact sorted_insertSkillDesc m _ ih

theorem mem_extract_skills (thr : ℚ) (text : String) (m : SkillMention)
    (hm : m ∈ extract_skills thr text) :
    ∃ skill ∈ skill_keywords, strContains (pyLower text) skill = true ∧
      thr ≤ calculate_skill_confidence text skill ∧
      m = ⟨pyTitle skill, calculate_skill_confidence text skill,
        extract_skill_context text skill⟩ := by
  unfold extract_skills at hm
  rw [mem_sortSkillsDesc] at hm
  obtain ⟨skill, hskill, hsome⟩ := List.mem_filterMap.mp hm
  by_cases h1 : strContains (pyLower text) skill = true
  · rw [if_pos h1] at hsome
    by_cases h2 : thr ≤ calculate_skill_confidence text skill
    · rw [if_pos h2] at hsome
      exact ⟨skill, hskill, h1, h2, (Option.some.injEq _ _ ▸ hsome).symm⟩
    · rw [if_neg h2] at hsome
      cases hsome
  · rw [if_neg h1] at hsome
    cases hsome

theorem skill_keywords_lower : ∀ s ∈ skill_keywords, pyLower s = s := by decide

theorem calculate_skill_confidence_tier (text skill : String)
    (hin : strContains (pyLower text) (pyLower skill) = true) :
    ((strContains (pyLower text) "skills" || strContains (pyLower text) "competencies") = true →
      calculate_skill_confidence text skill = 9/10) ∧
    ((strContains (pyLower text) "skills" || strContains (pyLower text) "competencies") = false →
      (strContains (pyLower text) "experience" || strContains (pyLower text) "work") = true →
      calculate_skill_confidence text skill = 8/10) ∧
    ((strContains (pyLower text) "skills" || strContains (pyLower text) "competencies") = false →
      (strContains (pyLower text) "experience" || strContains (pyLower text) "work") = false →
      calculate_skill_confidence text skill = 3/5) := by
  unfold calculate_skill_confidence
  rw [if_pos hin]
  refine ⟨fun h1 => ?_, fun h1 h2 => ?_, fun h1 h2 => ?_⟩
  · rw [if_pos h1]
  · rw [if_neg (by rw [h1]; exact fun hc => absurd hc (by simp)), if_pos h2]
  · rw [if_neg (by rw [h1]; exact fun hc => absurd hc (by simp)),
      if_neg (by rw [h2]; exact fun hc => absurd hc (by simp))]

/-- C8: every skill mention produced by `_extract_skills` carries the fixed
three-tier confidence (0.9 with a skills/competencies marker anywhere in
the document, else 0.8 with an experience/work marker, else 0.6), only
mentions reaching the confidence threshold appear, the list is sorted
descending by confidence, and every keyword found in the document whose
tier reaches the threshold does appear (with title-cased name). -/
theorem extract_skills_spec (thr : ℚ) (text : String) :
    (∀ m ∈ extract_skills thr text,
      thr ≤ m.confidence ∧
      ((strContains (pyLower text) "skills" || strContains (pyLower text) "competencies") = true →
        m.confidence = 9/10) ∧
      ((strContains (pyLower text) "skills" || strContains (pyLower text) "competencies") = false →
        (strContains (pyLower text) "experience" || strContains (pyLower text) "work") = true →
        m.confidence = 8/10) ∧
      ((strContains (pyLower text) "skills" || strContains (pyLower text) "competencies") = false →
        (strContains (pyLower text) "experience" || strContains (pyLower text) "work") = false →
        m.confidence = 3/5)) ∧
    (extract_skills thr text).Pairwise (fun a b => b.confidence ≤ a.confidence) ∧
    (∀ skill ∈ skill_keywords, strContains (pyLower text) skill = true →
      thr ≤ calculate_skill_confidence text skill →
      (⟨pyTitle skill, calculate_skill_confidence text skill,
        extract_skill_context text skill⟩ : SkillMention) ∈ extract_skills thr text) := by
  refine ⟨?_, sorted_sortSkillsDesc _, ?_⟩
  · intro m hm
    obtain ⟨skill, hskill, hin, hthr, rfl⟩ := mem_extract_skills thr text m hm
    have hlow : pyLower skill = skill := skill_keywords_lower skill hskill
    have htier := calculate_skill_confidence_tier text skill (by rw [hlow]; exact hin)
    exact ⟨hthr, htier.1, htier.2.1, htier.2.2⟩
  · intro skill hskill hin hthr
    unfold extract_skills
    rw [mem_sortSkillsDesc]
    exact List.mem_filterMap.mpr ⟨skill, hskill, by rw [if_pos hin, if_pos hthr]⟩

/-- Witness for C8: the document `"Skills: Python and SQL"` contains the
keyword `"python"` and a skills marker, so the mention `"Python"` with
confidence 0.9 is produced at threshold 0.7. -/
theorem extract_skills_spec_witness :
    (⟨"Python", calculate_skill_confidence "Skills: Python and SQL" "python",
      extract_skill_context "Skills: Python and SQL" "python"⟩ : SkillMention) ∈
      extract_skills (7/10) "Skills: Python and SQL" ∧
    calculate_skill_confidence "Skills: Python and SQL" "python" = 9/10 := by
  have hc : calculate_skill_confidence "Skills: Python and SQL" "python" = 9/10 := by
    unfold calculate_skill_confidence
    rw [if_pos (by decide), if_pos (by decide)]
  have h := (extract_skills_spec (7/10) "Skills: Python and SQL").2.2 "python"
    (by decide) (by decide) (by rw [hc]; norm_num)
  have htitle : pyTitle "python" = "Python" := by decide
  rw [htitle] at h
  exact ⟨h, hc⟩

/-- One education entry (`ResumeParser._parse_education_entries`). -/
structure EducationEntry where
  degree : String
  institution : String
  year : String
deriving DecidableEq, Repr

/-- One experience entry (`ResumeParser._parse_experience_entries`). -/
structure ExperienceEntry where
  title : String
  company : String
  duration : String
  description : String
deriving DecidableEq, Repr

/-- Python `text.split('\n')`. -/
def pySplitNl (s : String) : List String :=
  (s.data.splitOn '\n').map List.asString

/-- The education section start markers of `_extract_education`. -/
def education_patterns : List String :=
  ["education", "academic", "degree", "university", "college",
   "bachelor", "master", "phd", "diploma"]

/-- Section scan of `_extract_education` (lines 278-292): a line containing
a start marker turns the flag on and is itself skipped; afterwards every
non-blank line is appended (plus a newline); a line containing a stop
marker ends the scan after its own append. -/
def extract_education_scan : List String → Bool → String → String
  | [], _, acc => acc
  | line :: rest, inSec, acc =>
    if education_patterns.any (fun p => strContains (pyStrip (pyLower line)) p) then
      extract_education_scan rest true acc
    else
      let acc2 := if inSec ∧ pyStrip line ≠ "" then acc ++ line ++ "\n" else acc
      if inSec ∧ (["experience", "work", "employment", "skills"].any
          (fun p => strContains (pyStrip (pyLower line)) p)) then
        acc2
      else
        extract_education_scan rest inSec acc2

/-- The degree keywords of `_parse_education_entries`. -/
def degree_patterns : List String :=
  ["bachelor", "master", "phd", "associate", "diploma"]

/-- Does the 4-character word-bounded pattern `\b(19|20)\d{2}\b` match at
position `i`? -/
def yearMatchAt (cs : List Char) (i : Nat) : Bool :=
  ((cs.drop i).take 4).length = 4 &&
    ((cs.drop i).take 4).all Char.isDigit &&
    (listStarts ['1', '9'] (cs.drop i) || listStarts ['2', '0'] (cs.drop i)) &&
    wordBoundary cs i && wordBoundary cs (i + 4)

/-- `re.search(r'\b(19|20)\d{2}\b', line)`: the first 19xx/20xx token. -/
def findYear (s : String) : Option String :=
  match (List.range (s.data.length + 1)).find? (yearMatchAt s.data) with
  | some i => some ((s.data.drop i).take 4).asString
  | none => none

/-- Entry-building loop of `_parse_education_entries`: a line with a degree
keyword opens a new entry (flushing the current one); the next line fills
the empty institution; after that, the first line containing a 19xx/20xx
year fills the year. -/
def parse_education_scan :
    List String → Option EducationEntry → List EducationEntry → List EducationEntry
  | [], cur, acc => acc ++ cur.toList
  | line :: rest, cur, acc =>
    let l := pyStrip line
    if l = "" then
      parse_education_scan rest cur acc
    else if degree_patterns.any (fun p => strContains (pyLower l) p) then
      parse_education_scan rest (some ⟨l, "", ""⟩) (acc ++ cur.toList)
    else
      match cur with
      | some c =>
        if c.institution = "" then
          parse_education_scan rest (some {c with institution := l}) acc
        else if c.year = "" then
          match findYear l with
          | some y => parse_education_scan rest (some {c with year := y}) acc
          | none => parse_education_scan rest cur acc
        else
          parse_education_scan rest cur acc
      | none => parse_education_scan rest none acc

/-- `ResumeParser._parse_education_entries`. -/
def parse_education_entries (education_text : String) : List EducationEntry :=
  parse_education_scan (pySplitNl education_text) none []

/-- `ResumeParser._extract_education`. -/
def extract_education (text : String) : List EducationEntry :=
  let education_text := extract_education_scan (pySplitNl text) false ""
  if education_text = "" then [] else parse_education_entries education_text

/-- The experience section start markers of `_extract_experience`. -/
def experience_patterns : List String :=
  ["experience", "work history", "employment", "professional experience", "career"]

/-- Section scan of `_extract_experience` (lines 326-340), same discipline
as the education scan with its own start and stop marker sets. -/
def extract_experience_scan : List String → Bool → String → String
  | [], _, acc => acc
  | line :: rest, inSec, acc =>
    if experience_patterns.any (fun p => strContains (pyStrip (pyLower line)) p) then
      extract_experience_scan rest true acc
    else
      let acc2 := if inSec ∧ pyStrip line ≠ "" then acc ++ line ++ "\n" else acc
      if inSec ∧ (["education", "skills", "projects"].any
          (fun p => strContains (pyStrip (pyLower line)) p)) then
        acc2
      else
        extract_experience_scan rest inSec acc2

/-- The job-title keywords of `_parse_experience_entries`. -/
def job_patterns : List String :=
  ["engineer", "developer", "manager", "analyst", "specialist", "consultant"]

/-- Case-insensitive truthiness of
`re.search(r'\b(19|20)\d{2}\b.*\b(19|20)\d{2}\b|\b(19|20)\d{2}\b.*present|\b(19|20)\d{2}\b.*now', line, re.IGNORECASE)`:
some word-bounded year is followed (at any distance) by another
word-bounded year, or by `present`, or by `now`. -/
def durationLineMatches (line : String) : Bool :=
  (List.range ((pyLower line).data.length + 1)).any (fun i =>
    yearMatchAt (pyLower line).data i &&
      (((List.range (((pyLower line).data.drop (i + 4)).length + 1)).any
          (fun j => yearMatchAt ((pyLower line).data.drop (i + 4)) j)) ||
        listInfix ['p', 'r', 'e', 's', 'e', 'n', 't'] ((pyLower line).data.drop (i + 4)) ||
        listInfix ['n', 'o', 'w'] ((pyLower line).data.drop (i + 4))))

/-- Entry-building loop of `_parse_experience_entries`: a line with a
job-title keyword opens a new entry; the next line fills the company; then
the first date-like line fills the duration (other lines in that state are
dropped); afterwards lines accumulate into the description with a trailing
space. -/
def parse_experience_scan :
    List String → Option ExperienceEntry → List ExperienceEntry → List ExperienceEntry
  | [], cur, acc => acc ++ cur.toList
  | line :: rest, cur, acc =>
    let l := pyStrip line
    if l = "" then
      parse_experience_scan rest cur acc
    else if job_patterns.any (fun p => strContains (pyLower l) p) then
      parse_experience_scan rest (some ⟨l, "", "", ""⟩) (acc ++ cur.toList)
    else
      match cur with
      | some c =>
        if c.company = "" then
          parse_experience_scan rest (some {c with company := l}) acc
        else if c.duration = "" then
          if durationLineMatches l then
            parse_experience_scan rest (some {c with duration := l}) acc
          else
            parse_experience_scan rest cur acc
        else
          parse_experience_scan rest (some {c with description := c.description ++ l ++ " "}) acc
      | none => parse_experience_scan rest none acc

/-- `ResumeParser._parse_experience_entries`. -/
def parse_experience_entries (experience_text : String) : List ExperienceEntry :=
  parse_experience_scan (pySplitNl experience_text) none []

/-- `ResumeParser._extract_experience`. -/
def extract_experience (text : String) : List ExperienceEntry :=
  let experience_text := extract_experience_scan (pySplitNl text) false ""
  if experience_text = "" then [] else parse_experience_entries experience_text

/-- The personal-information record of `_extract_personal_info`. -/
structure PersonalInfo where
  name : Option String
  email : Option String
  phone : Option String
  location : Option String
  linkedin : Option String
  website : Option String
deriving DecidableEq, Repr

/-- Character class `[A-Za-z0-9._%+-]` (the local part of the service's
email regex). -/
def emailLocalChar (c : Char) : Bool :=
  c.isAlpha || c.isDigit || c == '.' || c == '_' || c == '%' || c == '+' || c == '-'

/-- Character class `[A-Za-z0-9.-]` (the domain part). -/
def emailDomainChar (c : Char) : Bool :=
  c.isAlpha || c.isDigit || c == '.' || c == '-'

/-- Character class `[A-Z|a-z]` (the final label; the source's class
literally contains `|`). -/
def emailTldChar (c : Char) : Bool :=
  c.isAlpha || c == '|'

/-- After the literal dot at `dotPos`, match the greedy final label
`[A-Z|a-z]{2,}` with a trailing `\b`, backtracking the label length from
greedy to 2; returns the end index (exclusive) of the whole match. -/
def emailTldEnd (cs : List Char) (dotPos : Nat) : Option Nat :=
  (((List.range ((cs.drop (dotPos + 1)).takeWhile emailTldChar).length).map
      (fun x => ((cs.drop (dotPos + 1)).takeWhile emailTldChar).length - x)).find?
    (fun j => decide (2 ≤ j) && wordBoundary cs (dotPos + 1 + j))).map
    (fun j => dotPos + 1 + j)

/-- After the `@` at `atPos`, match `[A-Za-z0-9.-]+\.[A-Z|a-z]{2,}\b`:
greedy domain run, backtracking the run length to place the literal dot. -/
def emailAfterAt (cs : List Char) (atPos : Nat) : Option Nat :=
  ((List.range ((cs.drop (atPos + 1)).takeWhile emailDomainChar).length).map
      (fun x => ((cs.drop (atPos + 1)).takeWhile emailDomainChar).length - x)).findSome?
    (fun k =>
      match cs.drop (atPos + 1 + k) with
      | '.' :: _ => emailTldEnd cs (atPos + 1 + k)
      | _ => none)

/-- Match the full email pattern starting exactly at index `i`: a word
boundary, a greedy local-part run, the `@`, and the domain tail; returns
the end index (exclusive). -/
def emailMatchEndAt (cs : List Char) (i : Nat) : Option Nat :=
  if wordBoundary cs i = true then
    if ((cs.drop i).takeWhile emailLocalChar).length = 0 then none
    else
      match cs.drop (i + ((cs.drop i).takeWhile emailLocalChar).length) with
      | '@' :: _ => emailAfterAt cs (i + ((cs.drop i).takeWhile emailLocalChar).length)
      | _ => none
  else none

/-- First match of the service email regex
`\b[A-Za-z0-9._%+-]+@[A-Za-z0-9.-]+\.[A-Z|a-z]{2,}\b`
(`re.findall(...)[0]` in `_extract_personal_info`). -/
def emailFirst (text : String) : Option String :=
  (List.range (text.data.length + 1)).findSome? (fun i =>
    (emailMatchEndAt text.data i).map (fun e => ((text.data.drop i).take (e - i)).asString))

/-- Match `[\+]?[1-9][\d]{0,15}` starting exactly at index `i`; returns
the end index (exclusive). -/
def phoneMatchEndAt (cs : List Char) (i : Nat) : Option Nat :=
  match cs.drop i with
  | '+' :: d :: rest =>
    if d.isDigit && d != '0' then
      some (i + 2 + ((rest.takeWhile Char.isDigit).take 15).length)
    else none
  | d :: rest =>
    if d.isDigit && d != '0' then
      some (i + 1 + ((rest.takeWhile Char.isDigit).take 15).length)
    else none
  | [] => none

/-- First match of the phone regex (`re.findall(...)[0]`). -/
def phoneFirst (text : String) : Option String :=
  (List.range (text.data.length + 1)).findSome? (fun i =>
    (phoneMatchEndAt text.data i).map (fun e => ((text.data.drop i).take (e - i)).asString))

/-- Match a literal character sequence, returning the remainder. -/
def matchLit (lit cs : List Char) : Option (List Char) :=
  if listStarts lit cs then some (cs.drop lit.length) else none

/-- Character class `[a-zA-Z0-9-]` (the LinkedIn handle). -/
def linkedinHandleChar (c : Char) : Bool :=
  c.isAlpha || c.isDigit || c == '-'

/-- Match `https?://(?:www\.)?linkedin\.com/in/[a-zA-Z0-9-]+` starting at
index `i`; returns the end index (exclusive). -/
def linkedinMatchEndAt (cs : List Char) (i : Nat) : Option Nat :=
  match (match matchLit "https://".data (cs.drop i) with
         | some r => some r
         | none => matchLit "http://".data (cs.drop i)) with
  | none => none
  | some r1 =>
    match (match matchLit "www.".data r1 with
           | some rw =>
             match matchLit "linkedin.com/in/".data rw with
             | some rr => some rr
             | none => matchLit "linkedin.com/in/".data r1
           | none => matchLit "linkedin.com/in/".data r1) with
    | none => none
    | some rr =>
      if (rr.takeWhile linkedinHandleChar).length = 0 then none
      else some (cs.length - (rr.length - (rr.takeWhile linkedinHandleChar).length))

/-- First LinkedIn URL in the text. -/
def linkedinFirst (text : String) : Option String :=
  (List.range (text.data.length + 1)).findSome? (fun i =>
    (linkedinMatchEndAt text.data i).map (fun e => ((text.data.drop i).take (e - i)).asString))

/-- Match the tail `[a-zA-Z0-9.-]+\.[a-zA-Z]{2,}` of the website regex on
the remainder `rem`; returns the length of the remainder after the match. -/
def websiteTail (rem : List Char) : Option Nat :=
  ((List.range (rem.takeWhile emailDomainChar).length).map
      (fun x => (rem.takeWhile emailDomainChar).length - x)).findSome?
    (fun k =>
      match rem.drop k with
      | '.' :: after =>
        if 2 ≤ (after.takeWhile Char.isAlpha).length then
          some (after.length - (after.takeWhile Char.isAlpha).length)
        else none
      | _ => none)

/-- Match `https?://(?:www\.)?[a-zA-Z0-9.-]+\.[a-zA-Z]{2,}` starting at
index `i`; returns the end index (exclusive). -/
def websiteMatchEndAt (cs : List Char) (i : Nat) : Option Nat :=
  match (match matchLit "https://".data (cs.drop i) with
         | some r => some r
         | none => matchLit "http://".data (cs.drop i)) with
  | none => none
  | some r1 =>
    match (match matchLit "www.".data r1 with
           | some rw =>
             match websiteTail rw with
             | some rest => some rest
             | none => websiteTail r1
           | none => websiteTail r1) with
    | none => none
    | some rest => some (cs.length - rest)

/-- First website URL in the text. -/
def websiteFirst (text : String) : Option String :=
  (List.range (text.data.length + 1)).findSome? (fun i =>
    (websiteMatchEndAt text.data i).map (fun e => ((text.data.drop i).take (e - i)).asString))

/-- `ResumeParser._extract_personal_info`: first email, phone, LinkedIn
and website matches; name and location from the named-entity oracle run on
the first 1000 characters (first PERSON entity, first GPE/LOC entity). -/
def extract_personal_info (nlp : String → List (String × String))
    (text : String) : PersonalInfo :=
  { name := ((nlp (text.data.take 1000).asString).find?
      (fun p => p.1 = "PERSON")).map (fun p => pyStrip p.2)
    email := emailFirst text
    phone := phoneFirst text
    location := ((nlp (text.data.take 1000).asString).find?
      (fun p => p.1 = "GPE" || p.1 = "LOC")).map (fun p => pyStrip p.2)
    linkedin := linkedinFirst text
    website := websiteFirst text }

/-- The message carried by an exception. -/
def PyError.message : PyError → String
  | .valueError m => m
  | .languageDetectionError m => m
  | .modelLoadingError m => m
  | .resumeProcessingError m => m
  | .dataValidationError m => m

/-- The structured output of `ResumeParser.parse_resume` (the
`parsing_timestamp` wall-clock field is not modelled). -/
structure ParsedResume where
  resume_id : Option String
  original_language : String
  text_length : Nat
  translated_text_length : Nat
  skills : List SkillMention
  education : List EducationEntry
  experience : List ExperienceEntry
  personal_info : PersonalInfo
  extraction_confidence : ℚ
deriving DecidableEq, Repr

/-- The `scores` list assembled by `ResumeParser._calculate_confidence`:
the per-signal scores that are present (0.8 for an email, 0.7 for a name,
0.6 for a phone, 0.8 times the average skill confidence when skills were
found, 0.7 each for non-empty education and experience).  Presence of the
string fields follows Python truthiness (non-null and non-empty). -/
def confidence_scores (personal_info : PersonalInfo)
    (skills : List SkillMention) (education : List EducationEntry)
    (experience : List ExperienceEntry) : List ℚ :=
  (if optStrPresent personal_info.email then [8/10] else []) ++
  (if optStrPresent personal_info.name then [7/10] else []) ++
  (if optStrPresent personal_info.phone then [6/10] else []) ++
  (if skills ≠ [] then
    [((skills.map (fun s => s.confidence)).sum / (skills.length : ℚ)) * (8/10)]
   else []) ++
  (if education ≠ [] then [7/10] else []) ++
  (if experience ≠ [] then [7/10] else [])

/-- `ResumeParser._calculate_confidence`: the average of the per-signal
scores present; 0.0 when no signal is present. -/
def calculate_confidence (personal_info : PersonalInfo)
    (skills : List SkillMention) (education : List EducationEntry)
    (experience : List ExperienceEntry) : ℚ :=
  if confidence_scores personal_info skills education experience = [] then 0
  else (confidence_scores personal_info skills education experience).sum /
    ((confidence_scores personal_info skills education experience).length : ℚ)

/-- The record assembled by `parse_resume` from the translated text (the
extractors and the confidence aggregation of lines 112-135 of the
source). -/
def parse_resume_record (nlp : String → List (String × String))
    (text : String) (resume_id : Option String)
    (translated_text original_language : String) : ParsedResume :=
  { resume_id := resume_id
    original_language := original_language
    text_length := text.data.length
    translated_text_length := translated_text.data.length
    skills := extract_skills configConfidenceThreshold translated_text
    education := extract_education translated_text
    experience := extract_experience translated_text
    personal_info := extract_personal_info nlp translated_text
    extraction_confidence :=
      calculate_confidence (extract_personal_info nlp translated_text)
        (extract_skills configConfidenceThreshold translated_text)
        (extract_education translated_text)
        (extract_experience translated_text) }

/-- `ResumeParser.parse_resume`: reject empty input (`ValueError`) and
input whose stripped length is below `min_text_length`
(`ResumeProcessingError`); detect the language (a failure is caught by the
surrounding try block and re-raised as `ResumeProcessingError`); translate
when the language is supported and not English, else keep the text and
record `"en"`; then run the sub-extractors (all enabled by default
configuration) and aggregate the confidence. -/
def parse_resume (detector : String → Except String String)
    (translator : String → String → Except String String)
    (nlp : String → List (String × String))
    (text : String) (resume_id : Option String) : Except PyError ParsedResume :=
  if text = "" then
    .error (.valueError "Resume text must be a non-empty string")
  else if (pyStrip text).length < configMinTextLength then
    .error (.resumeProcessingError "Resume text too short (minimum 50 characters)")
  else
    match detect_language detector text with
    | .error e => .error (.resumeProcessingError ("Resume parsing failed: " ++ e.message))
    | .ok language =>
      match (if language ≠ "en" ∧ supported_languages.contains language = true then
               match translate_text detector translator text (some language) with
               | .ok (t, _) => Except.ok (t, language)
               | .error e => Except.error e
             else Except.ok (text, "en")) with
      | .error e => .error (.resumeProcessingError ("Resume parsing failed: " ++ e.message))
      | .ok (translated_text, original_language) =>
        .ok (parse_resume_record nlp text resume_id translated_text original_language)

theorem translate_text_some_total (detector : String → Except String String)
    (translator : String → String → Except String String)
    (text lang : String) (htext : text ≠ "") :
    ∃ r : String × String,
      translate_text detector translator text (some lang) = Except.ok r := by
  have hstep : translate_text detector translator text (some lang) =
      (if supported_languages.contains lang = false then Except.ok (text, lang)
       else match translator lang text with
            | Except.ok t => Except.ok (t, lang)
            | Except.error _ => Except.ok (text, lang)) := by
    unfold translate_text
    rw [if_neg htext]
  rw [hstep]
  by_cases h : supported_languages.contains lang = false
  · rw [if_pos h]
    exact ⟨_, rfl⟩
  · rw [if_neg h]
    cases htr : translator lang text with
    | ok t => exact ⟨_, rfl⟩
    | error e => exact ⟨_, rfl⟩

theorem avg_if_pos (l : List ℚ) (hpos : ∀ x ∈ l, 0 < x) (hne : l ≠ []) :
    0 < if l = [] then (0 : ℚ) else l.sum / (l.length : ℚ) := by
  rw [if_neg hne]
  refine div_pos (List.sum_pos l hpos hne) ?_
  exact_mod_cast List.length_pos.mpr hne

theorem confidence_scores_pos (pi : PersonalInfo) (sk : List SkillMention)
    (ed : List EducationEntry) (ex : List ExperienceEntry)
    (hsk : ∀ m ∈ sk, 0 < m.confidence) :
    ∀ x ∈ confidence_scores pi sk ed ex, 0 < x := by
  intro x hx
  unfold confidence_scores at hx
  simp only [List.mem_append] at hx
  rcases hx with ((((hx | hx) | hx) | hx) | hx) | hx
  · split_ifs at hx
    · rw [List.mem_singleton] at hx
      subst hx
      norm_num
    · exact absurd hx (List.not_mem_nil x)
  · split_ifs at hx
    · rw [List.mem_singleton] at hx
      subst hx
      norm_num
    · exact absurd hx (List.not_mem_nil x)
  · split_ifs at hx
    · rw [List.mem_singleton] at hx
      subst hx
      norm_num
    · exact absurd hx (List.not_mem_nil x)
  · split_ifs at hx with hc
    · rw [List.mem_singleton] at hx
      subst hx
      have hsum : 0 < (sk.map (fun s => s.confidence)).sum :=
        List.sum_pos _
          (fun y hy => by
            obtain ⟨m, hm, rfl⟩ := List.mem_map.mp hy
            exact hsk m hm)
          (fun h => hc (List.map_eq_nil_iff.mp h))
      have hlen : (0 : ℚ) < (sk.length : ℚ) := by
        exact_mod_cast List.length_pos.mpr hc
      exact mul_pos (div_pos hsum hlen) (by norm_num)
    · exact absurd hx (List.not_mem_nil x)
  · split_ifs at hx
    · rw [List.mem_singleton] at hx
      subst hx
      norm_num
    · exact absurd hx (List.not_mem_nil x)
  · split_ifs at hx
    · rw [List.mem_singleton] at hx
      subst hx
      norm_num
    · exact absurd hx (List.not_mem_nil x)

theorem confidence_scores_ne_nil (pi : PersonalInfo) (sk : List SkillMention)
    (ed : List EducationEntry) (ex : List ExperienceEntry)
    (hsig : optStrPresent pi.email = true ∨ optStrPresent pi.name = true ∨
      optStrPresent pi.phone = true ∨ sk ≠ [] ∨ ed ≠ [] ∨ ex ≠ []) :
    confidence_scores pi sk ed ex ≠ [] := by
  intro hnil
  unfold confidence_scores at hnil
  simp only [List.append_eq_nil] at hnil
  obtain ⟨⟨⟨⟨⟨h1, h2⟩, h3⟩, h4⟩, h5⟩, h6⟩ := hnil
  rcases hsig with h | h | h | h | h | h
  · rw [if_pos h] at h1
    exact absurd h1 (List.cons_ne_nil _ _)
  · rw [if_pos h] at h2
    exact absurd h2 (List.cons_ne_nil _ _)
  · rw [if_pos h] at h3
    exact absurd h3 (List.cons_ne_nil _ _)
  · rw [if_pos h] at h4
    exact absurd h4 (List.cons_ne_nil _ _)
  · rw [if_pos h] at h5
    exact absurd h5 (List.cons_ne_nil _ _)
  · rw [if_pos h] at h6
    exact absurd h6 (List.cons_ne_nil _ _)

theorem calculate_confidence_pos (pi : PersonalInfo) (sk : List SkillMention)
    (ed : List EducationEntry) (ex : List ExperienceEntry)
    (hsk : ∀ m ∈ sk, 0 < m.confidence)
    (hsig : optStrPresent pi.email = true ∨ optStrPresent pi.name = true ∨
      optStrPresent pi.phone = true ∨ sk ≠ [] ∨ ed ≠ [] ∨ ex ≠ []) :
    0 < calculate_confidence pi sk ed ex := by
  unfold calculate_confidence
  exact avg_if_pos _ (confidence_scores_pos pi sk ed ex hsk)
    (confidence_scores_ne_nil pi sk ed ex hsig)

theorem calculate_confidence_no_signals (pi : PersonalInfo) (sk : List SkillMention)
    (ed : List EducationEntry) (ex : List ExperienceEntry)
    (h1 : optStrPresent pi.email = false) (h2 : optStrPresent pi.name = false)
    (h3 : optStrPresent pi.phone = false) (h4 : sk = []) (h5 : ed = [])
    (h6 : ex = []) :
    calculate_confidence pi sk ed ex = 0 := by
  have hnil : confidence_scores pi sk ed ex = [] := by
    unfold confidence_scores
    subst h4
    subst h5
    subst h6
    simp [h1, h2, h3]
  unfold calculate_confidence
  rw [if_pos hnil]

/-- C6 (amended): `parse_resume` validates its input first — an empty
string raises `ValueError` and a non-empty text whose stripped length is
below `min_text_length` (50) raises `ResumeProcessingError` — rather than
returning a record; once validation passes and language detection
succeeds, the extraction pipeline itself never raises (each sub-extractor
is total, leaving missing fields null/empty), and a parsed record's
extraction confidence is 0.0 exactly when no signal (email, name, phone,
skills, education, experience) is present in it — extracted skill
mentions always carry positive confidence, so any present signal makes
the average positive. -/
theorem parse_resume_validation_and_degradation
    (detector : String → Except String String)
    (translator : String → String → Except String String)
    (nlp : String → List (String × String))
    (text : String) (rid : Option String) :
    (text = "" → parse_resume detector translator nlp text rid =
      Except.error (.valueError "Resume text must be a non-empty string")) ∧
    (text ≠ "" → (pyStrip text).length < configMinTextLength →
      parse_resume detector translator nlp text rid =
        Except.error (.resumeProcessingError
          "Resume text too short (minimum 50 characters)")) ∧
    (configMinTextLength ≤ (pyStrip text).length →
      ∀ lang, detect_language detector text = Except.ok lang →
      ∃ out : ParsedResume,
        parse_resume detector translator nlp text rid = Except.ok out) ∧
    (∀ tt ol : String,
      ((parse_resume_record nlp text rid tt ol).extraction_confidence = 0 ↔
        (optStrPresent (parse_resume_record nlp text rid tt ol).personal_info.email = false ∧
         optStrPresent (parse_resume_record nlp text rid tt ol).personal_info.name = false ∧
         optStrPresent (parse_resume_record nlp text rid tt ol).personal_info.phone = false ∧
         (parse_resume_record nlp text rid tt ol).skills = [] ∧
         (parse_resume_record nlp text rid tt ol).education = [] ∧
         (parse_resume_record nlp text rid tt ol).experience = []))) := by
  refine ⟨?_, ?_, ?_, ?_⟩
  · intro h
    unfold parse_resume
    rw [if_pos h]
  · intro h1 h2
    unfold parse_resume
    rw [if_neg h1, if_pos h2]
  · intro hlen lang hdet
    have htext : text ≠ "" := by
      intro h
      subst h
      simp [pyStrip, configMinTextLength] at hlen
    unfold parse_resume
    rw [if_neg htext, if_neg (Nat.not_lt.mpr hlen), hdet]
    show ∃ out,
      (match (if lang ≠ "en" ∧ supported_languages.contains lang = true then
                match translate_text detector translator text (some lang) with
                | Except.ok (t, _) => Except.ok (t, lang)
                | Except.error e => Except.error e
              else Except.ok (text, "en")) with
       | Except.error e => Except.error (PyError.resumeProcessingError
           ("Resume parsing failed: " ++ PyError.message e))
       | Except.ok (translated_text, original_language) =>
         Except.ok (parse_resume_record nlp text rid translated_text original_language)) =
        Except.ok out
    by_cases hcond : lang ≠ "en" ∧ supported_languages.contains lang = true
    · obtain ⟨⟨t, l⟩, htr⟩ := translate_text_some_total detector translator text lang htext
      rw [if_pos hcond, htr]
      exact ⟨_, rfl⟩
    · rw [if_neg hcond]
      exact ⟨_, rfl⟩
  · intro tt ol
    have hsk : ∀ m ∈ extract_skills configConfidenceThreshold tt, 0 < m.confidence := by
      intro m hm
      obtain ⟨skill, _, _, hthr, rfl⟩ := mem_extract_skills _ _ m hm
      exact lt_of_lt_of_le (by norm_num [configConfidenceThreshold]) hthr
    show calculate_confidence (extract_personal_info nlp tt)
        (extract_skills configConfidenceThreshold tt) (extract_education tt)
        (extract_experience tt) = 0 ↔
      (optStrPresent (extract_personal_info nlp tt).email = false ∧
       optStrPresent (extract_personal_info nlp tt).name = false ∧
       optStrPresent (extract_personal_info nlp tt).phone = false ∧
       extract_skills configConfidenceThreshold tt = [] ∧
       extract_education tt = [] ∧
       extract_experience tt = [])
    constructor
    · intro h0
      refine ⟨?_, ?_, ?_, ?_, ?_, ?_⟩
      · cases hb : optStrPresent (extract_personal_info nlp tt).email with
        | false => rfl
        | true =>
          have hpos := calculate_confidence_pos (extract_personal_info nlp tt)
            (extract_skills configConfidenceThreshold tt) (extract_education tt)
            (extract_experience tt) hsk (Or.inl hb)
          rw [h0] at hpos
          exact absurd hpos (lt_irrefl 0)
      · cases hb : optStrPresent (extract_personal_info nlp tt).name with
        | false => rfl
        | true =>
          have hpos := calculate_confidence_pos (extract_personal_info nlp tt)
            (extract_skills configConfidenceThreshold tt) (extract_education tt)
            (extract_experience tt) hsk (Or.inr (Or.inl hb))
          rw [h0] at hpos
          exact absurd hpos (lt_irrefl 0)
      · cases hb : optStrPresent (extract_personal_info nlp tt).phone with
        | false => rfl
        | true =>
          have hpos := calculate_confidence_pos (extract_personal_info nlp tt)
            (extract_skills configConfidenceThreshold tt) (extract_education tt)
            (extract_experience tt) hsk
            (Or.inr (Or.inr (Or.inl hb)))
          rw [h0] at hpos
          exact absurd hpos (lt_irrefl 0)
      · by_cases hb : extract_skills configConfidenceThreshold tt = []
        · exact hb
        · have hpos := calculate_confidence_pos (extract_personal_info nlp tt)
            (extract_skills configConfidenceThreshold tt) (extract_education tt)
            (extract_experience tt) hsk
            (Or.inr (Or.inr (Or.inr (Or.inl hb))))
          rw [h0] at hpos
          exact absurd hpos (lt_irrefl 0)
      · by_cases hb : extract_education tt = []
        · exact hb
        · have hpos := calculate_confidence_pos (extract_personal_info nlp tt)
            (extract_skills configConfidenceThreshold tt) (extract_education tt)
            (extract_experience tt) hsk
            (Or.inr (Or.inr (Or.inr (Or.inr (Or.inl hb)))))
          rw [h0] at hpos
          exact absurd hpos (lt_irrefl 0)
      · by_cases hb : extract_experience tt = []
        · exact hb
        · have hpos := calculate_confidence_pos (extract_personal_info nlp tt)
            (extract_skills configConfidenceThreshold tt) (extract_education tt)
            (extract_experience tt) hsk
            (Or.inr (Or.inr (Or.inr (Or.inr (Or.inr hb)))))
          rw [h0] at hpos
          exact absurd hpos (lt_irrefl 0)
    · rintro ⟨h1, h2, h3, h4, h5, h6⟩
      exact calculate_confidence_no_signals _ _ _ _ h1 h2 h3 h4 h5 h6

/-- Witness for the amended C6: a 76-character English resume text parses
successfully (no exception) with an all-defaults oracle set. -/
theorem parse_resume_validation_witness :
    ∃ out : ParsedResume,
      parse_resume (fun _ => Except.ok "en") (fun _ t => Except.ok t) (fun _ => [])
        "An experienced software engineer skilled in Python, SQL and data analysis."
        (some "r1") = Except.ok out :=
  (parse_resume_validation_and_degradation (fun _ => Except.ok "en")
      (fun _ t => Except.ok t) (fun _ => [])
      "An experienced software engineer skilled in Python, SQL and data analysis."
      (some "r1")).2.2.1 (by decide) "en" rfl

/-- C6 counterexample: extracting from the empty string does NOT return an
all-empty record with confidence 0.0 — `parse_resume ""` raises
`ValueError` before any extraction happens. -/
theorem parse_resume_empty_raises :
    parse_resume (fun _ => Except.ok "en") (fun _ t => Except.ok t) (fun _ => [])
        "" none =
      Except.error (PyError.valueError "Resume text must be a non-empty string") := rfl
